import Mathlib

/-!
Verification of the FDD-book driver-lifecycle core.

The repository ships a FreeBSD kernel-module tutorial: `hello_world.c`
(a module event handler switching on MOD_LOAD / MOD_UNLOAD), the
`mydriver.c` probe/attach/detach skeleton, and the `driver_sim.c`
register-read simulation.  The skeleton's resource-acquisition and
rollback obligations are documented in comments and in the spec; where
the behaviour a claim speaks about is not implemented in the C sources
(only described), the corresponding definition below is modelled from
the spec and says so in its doc comment.
-/

namespace FDD

/-! ## Errno constants and C stubs embedded from the sources -/

/-- FreeBSD errno value returned by the hello_world stub's default branch. -/
def EOPNOTSUPP : Int := 45

/-- FreeBSD errno for a probe that does not match (mydriver.c comments). -/
def ENXIO : Int := 6

/-- FreeBSD probe score constant returned by the mydriver_probe stub. -/
def BUS_PROBE_DEFAULT : Int := -20

/-- Module event code MOD_LOAD as used in hello_world.c. -/
def MOD_LOAD : Int := 0

/-- Module event code MOD_UNLOAD as used in hello_world.c. -/
def MOD_UNLOAD : Int := 1

/-- Shallow embedding of hello_world_load from
src/chapters/2/hello_world/hello_world.c: a switch on the event code that
prints on load and unload and returns EOPNOTSUPP on any other event.
The first component collects the printf output, the second is the
returned error code. -/
def hello_world_load (cmd : Int) : List String × Int :=
  if cmd = MOD_LOAD then
    (["Hello World! Kernel module loaded.\n"], 0)
  else if cmd = MOD_UNLOAD then
    (["Goodbye World! Kernel module unloaded.\n"], 0)
  else
    ([], EOPNOTSUPP)

/-- Shallow embedding of mydriver_probe from
src/chapters/4/mydriver/mydriver.c: prints a diagnostic and returns
BUS_PROBE_DEFAULT unconditionally (the ENXIO path exists only in the
comments).  The argument stands for the opaque device_t handle. -/
def mydriver_probe (dev : Nat) : List String × Int :=
  (["Probing device...\n"], BUS_PROBE_DEFAULT)

/-- Shallow embedding of mydriver_attach from
src/chapters/4/mydriver/mydriver.c: prints a diagnostic and returns 0;
the resource-acquisition steps exist only in the comments. -/
def mydriver_attach (dev : Nat) : List String × Int :=
  (["Attaching device and initializing resources...\n"], 0)

/-- Shallow embedding of mydriver_detach from
src/chapters/4/mydriver/mydriver.c: prints a diagnostic and returns 0;
the cleanup steps exist only in the comments. -/
def mydriver_detach (dev : Nat) : List String × Int :=
  (["Detaching device and cleaning up...\n"], 0)

/-- Width modulus of the C type unsigned int in driver_sim.c. -/
def UINT32_MOD : Nat := 2 ^ 32

/-- Multiplication of unsigned int values: wraps modulo 2^32. -/
def uint32_mul (x y : Nat) : Nat := (x * y) % UINT32_MOD

/-- Shallow embedding of read_register from
src/chapters/4/driver_sim/driver_sim.c: the simulated register value is
the address times two in unsigned int arithmetic. -/
def read_register (address : Nat) : Nat := uint32_mul address 2

/-- The register address main reads in driver_sim.c. -/
def driver_sim_reg_addr : Nat := 0x10

/-- The value main receives from read_register in driver_sim.c. -/
def driver_sim_data : Nat := read_register driver_sim_reg_addr

/-! ## Resource ledger, modelled from the spec -/

/-- Modelled from the spec: the tagged kinds of acquired resources. -/
inductive ResourceKind : Type
  | MemoryMap
  | InterruptHandler
  | Timer
  | ChildDevice
deriving DecidableEq, Repr

/-- Modelled from the spec: a single acquired handle.  The opaque release
token is an external fallible operation the core never inspects; it is
modelled by the outcome `releaseOk` it reports when invoked. -/
structure Resource where
  kind : ResourceKind
  releaseOk : Bool
  orderIndex : Nat
deriving DecidableEq, Repr

/-- Modelled from the spec: the ordered record of currently-held
resources of one device, in acquisition order (earliest first). -/
abbrev ResourceLedger := List Resource

/-- Modelled from the spec: error kinds of the lifecycle core. -/
inductive Err : Type
  | NotSupported
  | AcquisitionFailed
  | DetachRefused
  | ReleaseFailed
  | ModuleBusy
  | UnsupportedEvent
  | InvalidTransition
  | CallbackFailed (code : Int)
deriving DecidableEq, Repr

/-- Modelled from the spec and the source comments: the errno the C
sources name for an error kind, where they name one (ENXIO for a
non-matching probe, EOPNOTSUPP for an unsupported module event). -/
def errnoOf : Err → Option Int
  | Err.NotSupported => some ENXIO
  | Err.UnsupportedEvent => some EOPNOTSUPP
  | _ => none

/-- Modelled from the spec: the walk of releaseAll over the ledger given
in reverse-acquisition order (last-acquired entry first).  Each entry's
release token is invoked in turn; a successful release removes the entry,
the first hard failure aborts the walk with the failed entry and all
entries acquired earlier still present.  Returns the remaining entries
(still in reverse-acquisition order), the trace of release calls in the
order they were issued, and the first hard failure if any. -/
def releaseGo : List Resource → List Resource × List Resource × Option Err
  | [] => ([], [], none)
  | r :: rest =>
    if r.releaseOk then
      let (rem, tr, e) := releaseGo rest
      (rem, r :: tr, e)
    else
      (r :: rest, [r], some Err.ReleaseFailed)

/-- Modelled from the spec: ResourceLedger.releaseAll iterates the ledger
from the last entry to the first, removing an entry only after its
release call reports success and aborting at the first hard failure.
Returns the remaining ledger (in acquisition order), the trace of release
calls issued, and the first hard failure if any. -/
def releaseAll (ledger : ResourceLedger) : ResourceLedger × List Resource × Option Err :=
  let (remRev, tr, e) := releaseGo ledger.reverse
  (remRev.reverse, tr, e)

/-! ## Driver lifecycle state machine, modelled from the spec -/

/-- Modelled from the spec: the four lifecycle states. -/
inductive DeviceState : Type
  | Unprobed
  | Probed
  | Attached
  | Detached
deriving DecidableEq, Repr

/-- Modelled from the spec: one device instance, with its lifecycle state
and its resource ledger. -/
structure Device where
  state : DeviceState
  ledger : ResourceLedger
deriving DecidableEq, Repr

/-- A freshly enumerated device: state Unprobed, empty ledger. -/
def mkDevice : Device := ⟨DeviceState.Unprobed, []⟩

/-- Modelled from the spec: one declared acquisition step of Attach.  The
external acquireFn is an opaque fallible operation; it is modelled by its
outcome: `none` when the acquisition fails, `some b` when it succeeds and
hands back a release token whose eventual outcome is `b`. -/
structure AcqStep where
  kind : ResourceKind
  result : Option Bool
deriving DecidableEq, Repr

/-- The resources a plan yields up to (and excluding) its first failing
acquisition, numbering order indices from `idx`. -/
def planAcquired (idx : Nat) : List AcqStep → List Resource
  | [] => []
  | s :: rest =>
    match s.result with
    | some rel => ⟨s.kind, rel, idx⟩ :: planAcquired (idx + 1) rest
    | none => []

/-- Modelled from the spec: the acquisition loop of Attach.  Steps are
taken in the fixed declared order; each success appends a resource with
the next order index; the first failure stops acquiring, releases the
resources acquired so far in reverse acquisition order (the third
component records the release calls issued during rollback), and leaves
the ledger as it was.  On success the ledger is extended by all acquired
resources and no rollback release is issued. -/
def attachGo (base : ResourceLedger) (accRev : List Resource) (idx : Nat) :
    List AcqStep → ResourceLedger × Option Err × List Resource
  | [] => (base ++ accRev.reverse, none, [])
  | s :: rest =>
    match s.result with
    | some rel => attachGo base (⟨s.kind, rel, idx⟩ :: accRev) (idx + 1) rest
    | none => (base, some Err.AcquisitionFailed, accRev)

/-- Modelled from the spec: the Probe transition.  Only legal from
Unprobed; if the identity is in the driver's supported set the device
becomes Probed and a match score is returned, otherwise the probe fails
with NotSupported and the device stays Unprobed, available for other
drivers. Probe never touches the ledger. -/
def probe (supported : List Nat) (score : Nat) (d : Device) (identity : Nat) :
    Device × Except Err Nat :=
  match d.state with
  | DeviceState.Unprobed =>
    if identity ∈ supported then
      (⟨DeviceState.Probed, d.ledger⟩, Except.ok score)
    else
      (d, Except.error Err.NotSupported)
  | _ => (d, Except.error Err.InvalidTransition)

/-- Modelled from the spec: the Attach transition.  Only legal from
Probed; acquires the plan's resources in declared order into the ledger;
all-or-nothing: on any acquisition failure everything acquired so far is
released in reverse order, the state reverts to Unprobed and the single
error AcquisitionFailed is surfaced.  Returns the resulting device, the
surfaced error if any, and the trace of rollback release calls. -/
def attach (d : Device) (plan : List AcqStep) :
    Device × Option Err × List Resource :=
  match d.state with
  | DeviceState.Probed =>
    let (l, e, tr) := attachGo d.ledger [] d.ledger.length plan
    match e with
    | none => (⟨DeviceState.Attached, l⟩, none, tr)
    | some err => (⟨DeviceState.Unprobed, l⟩, some err, tr)
  | _ => (d, some Err.InvalidTransition, [])

/-- Modelled from the spec: the Detach transition.  Only legal from
Attached; drains the ledger through releaseAll.  If every release
succeeds the device reaches Detached with an empty ledger; a hard release
failure is surfaced and the un-released entries stay in the ledger for a
later retry.  Returns the resulting device, the surfaced error if any,
and the trace of release calls issued. -/
def detach (d : Device) : Device × Option Err × List Resource :=
  match d.state with
  | DeviceState.Attached =>
    let (rem, tr, e) := releaseAll d.ledger
    match e with
    | none => (⟨DeviceState.Detached, rem⟩, none, tr)
    | some err => (⟨DeviceState.Attached, rem⟩, some err, tr)
  | _ => (d, some Err.InvalidTransition, [])

/-! ## Module registrar, modelled from the spec -/

/-- Modelled from the spec: module status. -/
inductive ModStatus : Type
  | Unloaded
  | Loaded
deriving DecidableEq, Repr

/-- Modelled from the spec: the tagged bus events a module dispatch can
receive; Other covers every event kind outside Load and Unload. -/
inductive MEvent : Type
  | Load
  | Unload
  | Other (code : Int)
deriving DecidableEq, Repr

/-- Modelled from the spec: the registrar's view of one module: its
status and the lifecycle states of the devices attached through it. -/
structure ModuleState where
  status : ModStatus
  deviceStates : List DeviceState
deriving DecidableEq, Repr

/-- Modelled from the spec: ModuleRegistrar.dispatch for one module.  The
callback is the module's registered lifecycle handler (for the stub,
hello_world_load), invoked with MOD_LOAD or MOD_UNLOAD.  On Load the
callback's error is propagated and status stays Unloaded; on success
status becomes Loaded.  On Unload the dispatch fails with ModuleBusy when
any device attached through the module is still Attached, and otherwise
sets status to Unloaded regardless of the callback's report.  Any other
event kind fails with UnsupportedEvent and changes nothing. -/
def dispatch (cb : Int → List String × Int) (m : ModuleState) (ev : MEvent) :
    ModuleState × Option Err :=
  match ev with
  | MEvent.Load =>
    if (cb MOD_LOAD).2 = 0 then
      (⟨ModStatus.Loaded, m.deviceStates⟩, none)
    else
      (m, some (Err.CallbackFailed (cb MOD_LOAD).2))
  | MEvent.Unload =>
    if m.deviceStates.any (fun s => s == DeviceState.Attached) then
      (m, some Err.ModuleBusy)
    else
      let _ := cb MOD_UNLOAD
      (⟨ModStatus.Unloaded, m.deviceStates⟩, none)
  | MEvent.Other _ => (m, some Err.UnsupportedEvent)

/-! ## Helper lemmas -/

/-- When every step of the plan succeeds, the acquisition loop extends
the ledger by all declared resources, reports no error and issues no
rollback release. -/
theorem attachGo_ok (plan : List AcqStep) :
    ∀ base accRev idx, (∀ s ∈ plan, s.result.isSome) →
      attachGo base accRev idx plan =
        (base ++ accRev.reverse ++ planAcquired idx plan, none, []) := by
  induction plan with
  | nil =>
    intro base accRev idx _
    simp [attachGo, planAcquired]
  | cons s rest ih =>
    intro base accRev idx h
    match hs : s.result with
    | some rel =>
      have hrest : ∀ t ∈ rest, t.result.isSome :=
        fun t ht => h t (List.mem_cons_of_mem _ ht)
      simp only [attachGo, planAcquired, hs, ih _ _ _ hrest,
        List.reverse_cons, List.append_assoc, List.cons_append,
        List.nil_append]
    | none =>
      exact absurd (h s (List.mem_cons_self _ _)) (by simp [hs])

/-- When some step of the plan fails, the acquisition loop reports
AcquisitionFailed, restores the ledger and issues rollback releases for
exactly the resources acquired before the failure, last-acquired
first. -/
theorem attachGo_fail (plan : List AcqStep) :
    ∀ base accRev idx, (∃ s ∈ plan, s.result = none) →
      attachGo base accRev idx plan =
        (base, some Err.AcquisitionFailed, (planAcquired idx plan).reverse ++ accRev) := by
  induction plan with
  | nil =>
    intro base accRev idx h
    exact absurd h (by simp)
  | cons s rest ih =>
    intro base accRev idx h
    match hs : s.result with
    | none =>
      simp [attachGo, planAcquired, hs]
    | some rel =>
      have hrest : ∃ t ∈ rest, t.result = none := by
        obtain ⟨t, ht, hn⟩ := h
        rcases List.mem_cons.mp ht with rfl | hmem
        · rw [hs] at hn; cases hn
        · exact ⟨t, hmem, hn⟩
      simp only [attachGo, planAcquired, hs, ih _ _ _ hrest,
        List.reverse_cons, List.append_assoc, List.singleton_append]

/-- The acquisition loop only ever appends to the ledger it starts
from. -/
theorem attachGo_ledger (plan : List AcqStep) :
    ∀ base accRev idx, ∃ t, (attachGo base accRev idx plan).1 = base ++ t := by
  induction plan with
  | nil =>
    intro base accRev idx
    exact ⟨accRev.reverse, rfl⟩
  | cons s rest ih =>
    intro base accRev idx
    match hs : s.result with
    | some rel => simpa [attachGo, hs] using ih base _ (idx + 1)
    | none => exact ⟨[], by simp [attachGo, hs]⟩

/-- Closed form of the release walk: it removes the released entries up
to the first hard failure, its trace covers the successfully released
entries plus the failing call, and it fails exactly when some entry's
release token fails. -/
theorem releaseGo_eq (xs : List Resource) :
    releaseGo xs =
      (xs.dropWhile (fun r => r.releaseOk),
       xs.takeWhile (fun r => r.releaseOk) ++
         (xs.dropWhile (fun r => r.releaseOk)).take 1,
       if xs.all (fun r => r.releaseOk) then none else some Err.ReleaseFailed) := by
  induction xs with
  | nil => simp [releaseGo]
  | cons r rest ih =>
    cases hr : r.releaseOk with
    | true => simp [releaseGo, hr, ih, List.takeWhile_cons, List.dropWhile_cons]
    | false => simp [releaseGo, hr, List.takeWhile_cons, List.dropWhile_cons]

/-- If every entry's release token succeeds, the walk drains the whole
list, calling each entry in order. -/
theorem releaseGo_all_ok (xs : List Resource) (h : ∀ r ∈ xs, r.releaseOk = true) :
    releaseGo xs = ([], xs, none) := by
  induction xs with
  | nil => simp [releaseGo]
  | cons r rest ih =>
    have hr := h r (List.mem_cons_self _ _)
    have hrest := ih fun t ht => h t (List.mem_cons_of_mem _ ht)
    simp [releaseGo, hr, hrest]

/-- The ledger left by releaseAll: the entries from the first hard
failure (in the reverse walk) back to the first-acquired entry. -/
theorem releaseAll_fst (l : ResourceLedger) :
    (releaseAll l).1 = (l.reverse.dropWhile (fun r => r.releaseOk)).reverse := by
  simp [releaseAll, releaseGo_eq]

/-- Every resource yielded by an all-successful plan carries a release
token that will succeed, when the plan declares so. -/
theorem planAcquired_releaseOk (plan : List AcqStep)
    (h : ∀ s ∈ plan, s.result = some true) :
    ∀ idx, ∀ r ∈ planAcquired idx plan, r.releaseOk = true := by
  induction plan with
  | nil => intro idx r hr; simp [planAcquired] at hr
  | cons s rest ih =>
    intro idx r hr
    have hs := h s (List.mem_cons_self _ _)
    rw [planAcquired, hs] at hr
    rcases List.mem_cons.mp hr with rfl | hmem
    · rfl
    · exact ih (fun t ht => h t (List.mem_cons_of_mem _ ht)) (idx + 1) r hmem

/-! ## Claim theorems -/

/-- C1: an Attach from Probed whose plan contains a failing acquisition
surfaces the single error AcquisitionFailed, reverts the device to
Unprobed (never Attached, never Detached), restores the ledger, and its
rollback releases exactly the resources successfully acquired before the
failure, in reverse acquisition order. -/
theorem claim_C1 (d : Device) (plan : List AcqStep)
    (hst : d.state = DeviceState.Probed)
    (hfail : ∃ s ∈ plan, s.result = none) :
    (attach d plan).2.1 = some Err.AcquisitionFailed ∧
    (attach d plan).1.state = DeviceState.Unprobed ∧
    (attach d plan).1.state ≠ DeviceState.Attached ∧
    (attach d plan).1.state ≠ DeviceState.Detached ∧
    (attach d plan).1.ledger = d.ledger ∧
    (attach d plan).2.2 = (planAcquired d.ledger.length plan).reverse := by
  obtain ⟨st, l⟩ := d
  simp only at hst
  subst hst
  simp [attach, attachGo_fail plan l [] l.length hfail]

/-- C1 witness: a two-step plan whose second acquisition fails, run from
Probed with an empty ledger. -/
theorem claim_C1_witness :
    (∃ s ∈ [(⟨ResourceKind.MemoryMap, some true⟩ : AcqStep),
            ⟨ResourceKind.InterruptHandler, none⟩], s.result = none) ∧
    (attach ⟨DeviceState.Probed, []⟩
        [⟨ResourceKind.MemoryMap, some true⟩,
         ⟨ResourceKind.InterruptHandler, none⟩]).2.1 = some Err.AcquisitionFailed ∧
    (attach ⟨DeviceState.Probed, []⟩
        [⟨ResourceKind.MemoryMap, some true⟩,
         ⟨ResourceKind.InterruptHandler, none⟩]).1.state = DeviceState.Unprobed ∧
    (attach ⟨DeviceState.Probed, []⟩
        [⟨ResourceKind.MemoryMap, some true⟩,
         ⟨ResourceKind.InterruptHandler, none⟩]).1.ledger = [] :=
  have h := claim_C1 ⟨DeviceState.Probed, []⟩
    [⟨ResourceKind.MemoryMap, some true⟩, ⟨ResourceKind.InterruptHandler, none⟩]
    rfl (by decide)
  ⟨by decide, h.1, h.2.1, h.2.2.2.2.1⟩

/-- C2: starting from a freshly enumerated device, a successful Probe,
an Attach whose acquisitions all succeed, and a Detach whose releases all
succeed leave the ledger empty immediately before Attach and empty again
after Detach, the device ends Detached, and the releases issued by Detach
are exactly the resources acquired by Attach, in reverse order. -/
theorem claim_C2 (supported : List Nat) (score identity : Nat) (plan : List AcqStep)
    (hm : identity ∈ supported)
    (hp : ∀ s ∈ plan, s.result = some true) :
    (probe supported score mkDevice identity).1.ledger = [] ∧
    (attach (probe supported score mkDevice identity).1 plan).2.1 = none ∧
    (attach (probe supported score mkDevice identity).1 plan).1.ledger =
      planAcquired 0 plan ∧
    (detach (attach (probe supported score mkDevice identity).1 plan).1).2.1 = none ∧
    (detach (attach (probe supported score mkDevice identity).1 plan).1).1.ledger = [] ∧
    (detach (attach (probe supported score mkDevice identity).1 plan).1).1.state =
      DeviceState.Detached ∧
    (detach (attach (probe supported score mkDevice identity).1 plan).1).2.2 =
      (planAcquired 0 plan).reverse := by
  have hprobe : (probe supported score mkDevice identity).1 =
      ⟨DeviceState.Probed, []⟩ := by
    simp [probe, mkDevice, hm]
  have hsome : ∀ s ∈ plan, s.result.isSome := by
    intro s hs; rw [hp s hs]; rfl
  have hattach : attach ⟨DeviceState.Probed, []⟩ plan =
      (⟨DeviceState.Attached, planAcquired 0 plan⟩, none, []) := by
    simp [attach, attachGo_ok plan [] [] 0 hsome]
  have hrel : ∀ r ∈ (planAcquired 0 plan).reverse, r.releaseOk = true := by
    intro r hr
    exact planAcquired_releaseOk plan hp 0 r (List.mem_reverse.mp hr)
  have hdetach : detach ⟨DeviceState.Attached, planAcquired 0 plan⟩ =
      (⟨DeviceState.Detached, []⟩, none, (planAcquired 0 plan).reverse) := by
    simp [detach, releaseAll, releaseGo_all_ok _ hrel]
  rw [hprobe, hattach]
  simp [hprobe, hattach, hdetach]

/-- C2 witness: supported set containing the identity and a one-step plan
whose acquisition and release both succeed. -/
theorem claim_C2_witness :
    (7 ∈ [7]) ∧
    (∀ s ∈ [(⟨ResourceKind.MemoryMap, some true⟩ : AcqStep)], s.result = some true) ∧
    (probe [7] 1 mkDevice 7).1.ledger = [] ∧
    (detach (attach (probe [7] 1 mkDevice 7).1
        [⟨ResourceKind.MemoryMap, some true⟩]).1).1.ledger = [] ∧
    (detach (attach (probe [7] 1 mkDevice 7).1
        [⟨ResourceKind.MemoryMap, some true⟩]).1).1.state = DeviceState.Detached :=
  have h := claim_C2 [7] 1 7 [⟨ResourceKind.MemoryMap, some true⟩]
    (by decide) (by decide)
  ⟨by decide, by decide, h.1, h.2.2.2.2.1, h.2.2.2.2.2.1⟩

/-- C3: releaseAll visits the ledger from the last-acquired entry to the
first (its trace is the successful suffix of releases followed by the one
failing call, if any), stops at the first hard failure leaving the failed
entry and all earlier-acquired entries in the ledger, and removes an
entry only when its release call reports success. -/
theorem claim_C3 (l : ResourceLedger) :
    (releaseAll l).2.1 =
      l.reverse.takeWhile (fun r => r.releaseOk) ++
        (l.reverse.dropWhile (fun r => r.releaseOk)).take 1 ∧
    (releaseAll l).1 = (l.reverse.dropWhile (fun r => r.releaseOk)).reverse ∧
    (∀ r ∈ l, r.releaseOk = false → r ∈ (releaseAll l).1) ∧
    (∀ r ∈ l, r ∉ (releaseAll l).1 → r.releaseOk = true) := by
  have hrem := releaseAll_fst l
  have htr : (releaseAll l).2.1 =
      l.reverse.takeWhile (fun r => r.releaseOk) ++
        (l.reverse.dropWhile (fun r => r.releaseOk)).take 1 := by
    simp [releaseAll, releaseGo_eq]
  have hkeep : ∀ r ∈ l, r.releaseOk = false → r ∈ (releaseAll l).1 := by
    intro r hr hfalse
    rw [hrem, List.mem_reverse]
    have hrev : r ∈ l.reverse := List.mem_reverse.mpr hr
    rcases (List.mem_append.mp
        (by rw [List.takeWhile_append_dropWhile]; exact hrev :
          r ∈ l.reverse.takeWhile (fun r => r.releaseOk) ++
              l.reverse.dropWhile (fun r => r.releaseOk))) with htk | hdp
    · have := List.mem_takeWhile_imp htk
      rw [hfalse] at this
      cases this
    · exact hdp
  refine ⟨htr, hrem, hkeep, ?_⟩
  intro r hr hnot
  cases hok : r.releaseOk with
  | true => rfl
  | false => exact absurd (hkeep r hr hok) hnot

/-- C3 witness: a two-entry ledger whose last-acquired entry fails to
release: the trace is the single failing call and both entries remain. -/
theorem claim_C3_witness :
    (releaseAll [⟨ResourceKind.MemoryMap, true, 0⟩, ⟨ResourceKind.Timer, false, 1⟩]).2.1 =
      [⟨ResourceKind.Timer, false, 1⟩] ∧
    (releaseAll [⟨ResourceKind.MemoryMap, true, 0⟩, ⟨ResourceKind.Timer, false, 1⟩]).1 =
      [⟨ResourceKind.MemoryMap, true, 0⟩, ⟨ResourceKind.Timer, false, 1⟩] :=
  have h := claim_C3 [⟨ResourceKind.MemoryMap, true, 0⟩, ⟨ResourceKind.Timer, false, 1⟩]
  ⟨h.1.trans (by decide), h.2.1.trans (by decide)⟩

/-- C4: Unload dispatched to a module with at least one device still
Attached fails with ModuleBusy and leaves the module state unchanged;
once every device attached through it has reached Detached, the same
Unload succeeds and the status becomes Unloaded. -/
theorem claim_C4 (cb : Int → List String × Int) (m : ModuleState) :
    ((∃ s ∈ m.deviceStates, s = DeviceState.Attached) →
      dispatch cb m MEvent.Unload = (m, some Err.ModuleBusy)) ∧
    ((∀ s ∈ m.deviceStates, s = DeviceState.Detached) →
      (dispatch cb m MEvent.Unload).2 = none ∧
      (dispatch cb m MEvent.Unload).1.status = ModStatus.Unloaded) := by
  constructor
  · intro hbusy
    have hany : m.deviceStates.any (fun s => s == DeviceState.Attached) = true := by
      rw [List.any_eq_true]
      obtain ⟨s, hs, rfl⟩ := hbusy
      exact ⟨DeviceState.Attached, hs, by simp⟩
    simp [dispatch, hany]
  · intro hdet
    have hany : m.deviceStates.any (fun s => s == DeviceState.Attached) = false := by
      rw [List.any_eq_false]
      intro s hs
      rw [hdet s hs]
      simp
    simp [dispatch, hany]

/-- C4 witness: with the hello_world handler as callback, Unload fails
with ModuleBusy while a device is Attached and succeeds once the device
is Detached. -/
theorem claim_C4_witness :
    dispatch hello_world_load ⟨ModStatus.Loaded, [DeviceState.Attached]⟩ MEvent.Unload =
      (⟨ModStatus.Loaded, [DeviceState.Attached]⟩, some Err.ModuleBusy) ∧
    (dispatch hello_world_load ⟨ModStatus.Loaded, [DeviceState.Detached]⟩ MEvent.Unload).2 =
      none :=
  ⟨(claim_C4 hello_world_load ⟨ModStatus.Loaded, [DeviceState.Attached]⟩).1
      ⟨DeviceState.Attached, by decide, rfl⟩,
   ((claim_C4 hello_world_load ⟨ModStatus.Loaded, [DeviceState.Detached]⟩).2
      (by decide)).1⟩

/-- C5: any event kind outside Load and Unload is rejected by dispatch
with UnsupportedEvent and leaves the module state unchanged, and the
hello_world stub returns EOPNOTSUPP for any command that is neither
MOD_LOAD nor MOD_UNLOAD. -/
theorem claim_C5 (cb : Int → List String × Int) (m : ModuleState) (code : Int)
    (cmd : Int) (h1 : cmd ≠ MOD_LOAD) (h2 : cmd ≠ MOD_UNLOAD) :
    dispatch cb m (MEvent.Other code) = (m, some Err.UnsupportedEvent) ∧
    (hello_world_load cmd).2 = EOPNOTSUPP ∧
    errnoOf Err.UnsupportedEvent = some EOPNOTSUPP := by
  refine ⟨rfl, ?_, rfl⟩
  simp [hello_world_load, h1, h2]

/-- C5 witness: event code 2 (MOD_SHUTDOWN in FreeBSD) is neither
MOD_LOAD nor MOD_UNLOAD; dispatch rejects it and the stub returns
EOPNOTSUPP. -/
theorem claim_C5_witness :
    ((2 : Int) ≠ MOD_LOAD) ∧ ((2 : Int) ≠ MOD_UNLOAD) ∧
    dispatch hello_world_load ⟨ModStatus.Loaded, []⟩ (MEvent.Other 2) =
      (⟨ModStatus.Loaded, []⟩, some Err.UnsupportedEvent) ∧
    (hello_world_load 2).2 = EOPNOTSUPP :=
  have h := claim_C5 hello_world_load ⟨ModStatus.Loaded, []⟩ 2 2
    (by decide) (by decide)
  ⟨by decide, by decide, h.1, h.2.1⟩

/-- C6: probing an Unprobed device with an identity outside the driver's
supported set fails with NotSupported (surfaced as ENXIO in the C
sources) and leaves the device Unprobed, still available to other
drivers. -/
theorem claim_C6 (supported : List Nat) (score : Nat) (d : Device) (identity : Nat)
    (hst : d.state = DeviceState.Unprobed) (hns : identity ∉ supported) :
    probe supported score d identity = (d, Except.error Err.NotSupported) ∧
    (probe supported score d identity).1.state = DeviceState.Unprobed ∧
    errnoOf Err.NotSupported = some ENXIO := by
  obtain ⟨st, l⟩ := d
  simp only at hst
  subst hst
  refine ⟨by simp [probe, hns], ?_, rfl⟩
  simp [probe, hns]

/-- C6 witness: identity 3 against an empty supported set, on a fresh
device. -/
theorem claim_C6_witness :
    (mkDevice.state = DeviceState.Unprobed) ∧ ((3 : Nat) ∉ ([] : List Nat)) ∧
    probe [] 0 mkDevice 3 = (mkDevice, Except.error Err.NotSupported) :=
  have h := claim_C6 [] 0 mkDevice 3 rfl (by decide)
  ⟨rfl, by decide, h.1⟩

/-- C7: Probe never changes the resource ledger; Attach only ever appends
to it; Detach only ever removes from it. -/
theorem claim_C7 (supported : List Nat) (score : Nat) (d : Device) (identity : Nat)
    (plan : List AcqStep) :
    (probe supported score d identity).1.ledger = d.ledger ∧
    (∃ t, (attach d plan).1.ledger = d.ledger ++ t) ∧
    List.Sublist (detach d).1.ledger d.ledger := by
  obtain ⟨st, l⟩ := d
  refine ⟨?_, ?_, ?_⟩
  · cases st <;> simp [probe]
    case Unprobed => split <;> rfl
  · cases st <;> simp [attach]
    case Probed =>
      obtain ⟨t, ht⟩ := attachGo_ledger plan l [] l.length
      rcases hgo : attachGo l [] l.length plan with ⟨l2, e, tr⟩
      rw [hgo] at ht
      cases e <;> simp <;> exact ⟨t, ht⟩
  · cases st <;> simp [detach]
    case Attached =>
      have hsub : List.Sublist (releaseAll l).1 l := by
        have h1 := List.dropWhile_sublist (l := l.reverse) (fun r => r.releaseOk)
        have h2 := List.Sublist.reverse h1
        rw [List.reverse_reverse] at h2
        rw [releaseAll_fst l]
        exact h2
      rcases hra : releaseAll l with ⟨rem, tr, e⟩
      rw [hra] at hsub
      cases e <;> simpa using hsub

/-- C8: the skeleton as written has no failure path: mydriver_attach and
mydriver_detach return 0 for every device, so no AcquisitionFailed and no
detach refusal is ever surfaced by the C code itself. -/
theorem claim_C8 (dev : Nat) :
    (mydriver_attach dev).2 = 0 ∧ (mydriver_detach dev).2 = 0 :=
  ⟨rfl, rfl⟩

/-- C9: read_register returns its address doubled in unsigned 32-bit
arithmetic (hence a value below 2^32), and the call main makes at address
0x10 reads 0x20. -/
theorem claim_C9 (a : Nat) :
    read_register a = (a * 2) % 2 ^ 32 ∧
    read_register a < 2 ^ 32 ∧
    driver_sim_data = 0x20 := by
  refine ⟨rfl, ?_, by decide⟩
  exact Nat.mod_lt _ (by norm_num [UINT32_MOD])

end FDD
